import Mathlib

/-!
Verification development for the FootSyncMarkerGenerator contact-detection core.

The detection algorithms (pelvis-line crossing, velocity minima, curvature
saliency, and composite fusion) are embedded shallowly: float arithmetic is
modelled exactly over a linear ordered field (instantiated at `ℚ` for concrete
evaluation and at `ℝ` where `FVector::Size` needs a square root), UE's
`KINDA_SMALL_NUMBER` epsilon guards are kept, and the animation-API boundary
(null sequence, bone names, per-key times and evaluated bone positions) is
modelled as explicit input data.
-/

namespace FootSync

/-- UE constant `KINDA_SMALL_NUMBER` (`1.e-4f`), the epsilon used in every
numeric guard of the detection core. -/
def kindaSmallNumber (α : Type) [LinearOrderedField α] : α := 1 / 10000

/-- UE `FMath::Clamp(x, lo, hi)`: `x < lo ? lo : (x < hi ? x : hi)`. -/
def fclamp {α : Type} [LinearOrderedField α] (x lo hi : α) : α :=
  if x < lo then lo else if x < hi then x else hi

/-- UE `FVector` with exact scalars. -/
structure Vec3 (α : Type) where
  x : α
  y : α
  z : α
deriving DecidableEq

/-- UE `FVector::DotProduct`. -/
def Vec3.dot {α : Type} [LinearOrderedField α] (a b : Vec3 α) : α :=
  a.x * b.x + a.y * b.y + a.z * b.z

/-- Componentwise `FVector` subtraction. -/
def Vec3.sub {α : Type} [LinearOrderedField α] (a b : Vec3 α) : Vec3 α :=
  ⟨a.x - b.x, a.y - b.y, a.z - b.z⟩

/-- UE `FVector::CrossProduct`. -/
def Vec3.cross {α : Type} [LinearOrderedField α] (a b : Vec3 α) : Vec3 α :=
  ⟨a.y * b.z - a.z * b.y, a.z * b.x - a.x * b.z, a.x * b.y - a.y * b.x⟩

/-- UE `FVector::ForwardVector` (+X). -/
def forwardVector {α : Type} [LinearOrderedField α] : Vec3 α := ⟨1, 0, 0⟩

/-- UE `FVector::RightVector` (+Y). -/
def rightVector {α : Type} [LinearOrderedField α] : Vec3 α := ⟨0, 1, 0⟩

/-- UE `FName`, reduced to the single observable the detectors use:
`IsNone()`. -/
structure FName where
  isNone : Bool
deriving DecidableEq

/-- `FSyncFootDefinition` (LocomotionPresets.h), reduced to the field the
detectors read. -/
structure FSyncFootDefinition where
  BoneName : FName
deriving DecidableEq

/-- `FLocomotionPreset` (LocomotionPresets.h), reduced to the fields that are
passed to the detectors: the pelvis reference bone and the configured primary
movement axis. -/
structure FLocomotionPreset (α : Type) where
  PelvisBoneName : FName
  PrimaryMoveAxis : Vec3 α
deriving DecidableEq

/-- `EFootContactDetectionMethod` (LocomotionPresets.h). -/
inductive EFootContactDetectionMethod where
  | PelvisCrossing
  | VelocityCurve
  | Saliency
  | Composite
deriving DecidableEq

/-- `FFootContactResult` (LocomotionPresets.h). -/
structure FFootContactResult (α : Type) where
  Time : α
  Confidence : α
  bIsContact : Bool
  Source : EFootContactDetectionMethod
deriving DecidableEq

/-- Default-constructed `FFootContactResult()` (field initializers of the
USTRUCT). -/
def defaultResult {α : Type} [LinearOrderedField α] : FFootContactResult α :=
  ⟨0, 0, true, EFootContactDetectionMethod.PelvisCrossing⟩

/-- `FCompositeDetectionWeights` (LocomotionPresets.h). -/
structure FCompositeDetectionWeights (α : Type) where
  PelvisCrossingWeight : α
  VelocityCurveWeight : α
  SaliencyWeight : α
deriving DecidableEq

/-- Header defaults of `FCompositeDetectionWeights` (0.4 / 0.3 / 0.3). -/
def defaultWeights (α : Type) [LinearOrderedField α] : FCompositeDetectionWeights α :=
  ⟨2 / 5, 3 / 10, 3 / 10⟩

/-- The numeric tuning fields of `UFootSyncMarkerSettings` consumed by the
four detectors. -/
structure UFootSyncMarkerSettings (α : Type) where
  PelvisConfidenceScale : α
  LoopBoundaryConfidence : α
  VelocityMinimumThreshold : α
  VelocityDefaultConfidence : α
  SaliencyWindowSize : α
  SaliencyThreshold : α
  SaliencyDefaultConfidence : α
  SaliencyMinConfidence : α
  ResultMergeThreshold : α
  DetectorAgreementBonus : α
deriving DecidableEq

/-- Header defaults of `UFootSyncMarkerSettings` for the fields above
(FootSyncMarkerSettings.h). -/
def defaultSettings (α : Type) [LinearOrderedField α] : UFootSyncMarkerSettings α :=
  ⟨50, 7 / 10, 5, 1 / 2, 1 / 10, 1 / 2, 1 / 2, 3 / 10, 1 / 20, 1 / 10⟩

/-- The animation-facing inputs a detector reads through the UE animation API:
whether the sequence pointer is null, the per-key sample times (`GetNumKeys` /
`GetTimeAtFrame`), and the per-key bone positions produced by pose evaluation
(`GetAnimPoseAtTimeIntervals` followed by `GetRelativeTransform` for the
pelvis-relative foot position, or `GetBonePose` for the world-space foot
position). -/
structure AnimSamples (α : Type) where
  isNull : Bool
  times : List α
  relPositions : List (Vec3 α)
  worldPositions : List (Vec3 α)
deriving DecidableEq

/-! ### PelvisCrossingDetector -/

/-- `FPelvisCrossingDetector::DeterminePrimaryMoveAxis`: min/max fold of the
X and Y components over all positions, picking the axis with the larger range
(Y strictly larger picks right, otherwise forward). -/
def determinePrimaryMoveAxis {α : Type} [LinearOrderedField α] :
    List (Vec3 α) → Vec3 α
  | [] => forwardVector
  | [_] => forwardVector
  | p :: ps =>
      let MinX := ps.foldl (fun acc q => min acc q.x) p.x
      let MaxX := ps.foldl (fun acc q => max acc q.x) p.x
      let MinY := ps.foldl (fun acc q => min acc q.y) p.y
      let MaxY := ps.foldl (fun acc q => max acc q.y) p.y
      if MaxY - MinY > MaxX - MinX then rightVector else forwardVector

/-- `FPelvisCrossingDetector::InterpolateCrossingTime`: linear interpolation of
the zero crossing, midpoint fallback when `|p2 - p1|` is below epsilon, result
clamped into `[Time1, Time2]`. -/
def interpolateCrossingTime {α : Type} [LinearOrderedField α]
    (Time1 Pos1 Time2 Pos2 : α) : α :=
  let DeltaPos := Pos2 - Pos1
  if |DeltaPos| < kindaSmallNumber α then (Time1 + Time2) / 2
  else fclamp (Time1 + (-Pos1) * (Time2 - Time1) / DeltaPos) Time1 Time2

/-- The zero-crossing scan of `FPelvisCrossingDetector::DetectContacts` (the
`for (i = 1; i < Positions.Num(); ++i)` loop), walking consecutive
(time, projected position) pairs in lockstep. -/
def findCrossings {α : Type} [LinearOrderedField α] (S : UFootSyncMarkerSettings α) :
    List α → List α → List (FFootContactResult α)
  | t1 :: t2 :: ts, p1 :: p2 :: ps =>
      (if p1 * p2 < 0 then
        [⟨interpolateCrossingTime t1 p1 t2 p2,
          fclamp (|p2 - p1| / S.PelvisConfidenceScale) (1 / 2) 1,
          decide (p1 < 0) && decide (0 < p2),
          EFootContactDetectionMethod.PelvisCrossing⟩]
       else []) ++ findCrossings S (t2 :: ts) (p2 :: ps)
  | _, _ => []

/-- `FPelvisCrossingDetector::DetectContacts`: guards (null sequence, missing
foot bone, missing pelvis bone, fewer than 2 keys, pose-count mismatch), then
axis determination, projection, the crossing scan, and the loop-boundary
check between the last and first frame. -/
def pelvisDetectContacts {α : Type} [LinearOrderedField α]
    (S : UFootSyncMarkerSettings α) (anim : AnimSamples α)
    (Foot : FSyncFootDefinition) (Preset : FLocomotionPreset α) :
    List (FFootContactResult α) :=
  if anim.isNull || Foot.BoneName.isNone || Preset.PelvisBoneName.isNone then []
  else if anim.times.length < 2 then []
  else if anim.relPositions.length ≠ anim.times.length then []
  else
    let MoveAxis := determinePrimaryMoveAxis anim.relPositions
    let Positions := anim.relPositions.map (fun RelPos => Vec3.dot RelPos MoveAxis)
    let Crossings := findCrossings S anim.times Positions
    let Boundary :=
      if 2 ≤ Positions.length then
        let FirstPos := Positions.headD 0
        let LastPos := Positions.getLastD 0
        if FirstPos * LastPos < 0 then
          [⟨anim.times.getLastD 0, S.LoopBoundaryConfidence,
            decide (LastPos < 0) && decide (0 < FirstPos),
            EFootContactDetectionMethod.PelvisCrossing⟩]
        else []
      else []
    Crossings ++ Boundary

/-! ### CompositeDetector -/

/-- `FCompositeDetector::GetWeightForMethod` (default case yields 1.0). -/
def getWeightForMethod {α : Type} [LinearOrderedField α]
    (W : FCompositeDetectionWeights α) : EFootContactDetectionMethod → α
  | EFootContactDetectionMethod.PelvisCrossing => W.PelvisCrossingWeight
  | EFootContactDetectionMethod.VelocityCurve => W.VelocityCurveWeight
  | EFootContactDetectionMethod.Saliency => W.SaliencyWeight
  | EFootContactDetectionMethod.Composite => 1

/-- The loop of `FCompositeDetector::ClusterResultsByTime`: a result joins the
current cluster when its time is within `MergeThreshold` of the cluster's
start (anchor) time, otherwise the cluster is closed and a new one is anchored
at that result; the final cluster is appended at the end. -/
def clusterLoop {α : Type} [LinearOrderedField α] (MergeThreshold : α) :
    List (FFootContactResult α) → List (FFootContactResult α) → α →
    List (List (FFootContactResult α))
  | [], CurrentCluster, _ => [CurrentCluster]
  | r :: rest, CurrentCluster, ClusterStartTime =>
      if r.Time - ClusterStartTime ≤ MergeThreshold then
        clusterLoop MergeThreshold rest (CurrentCluster ++ [r]) ClusterStartTime
      else
        CurrentCluster :: clusterLoop MergeThreshold rest [r] r.Time

/-- `FCompositeDetector::ClusterResultsByTime`. -/
def clusterResultsByTime {α : Type} [LinearOrderedField α]
    (AllResults : List (FFootContactResult α)) (MergeThreshold : α) :
    List (List (FFootContactResult α)) :=
  match AllResults with
  | [] => []
  | r :: rest => clusterLoop MergeThreshold rest [r] r.Time

/-- `FCompositeDetector::CalculateClusterResult`: size-0 clusters give the
default result, size-1 clusters pass through, larger clusters fuse by
confidence-weighted time averaging (simple average when the total weight is
below epsilon), max confidence plus agreement bonus clamped to [0,1], and a
contact/lift-off majority vote with ties favouring contact. -/
def calculateClusterResult {α : Type} [LinearOrderedField α]
    (S : UFootSyncMarkerSettings α) (W : FCompositeDetectionWeights α)
    (Cluster : List (FFootContactResult α)) : FFootContactResult α :=
  match Cluster with
  | [] => defaultResult
  | [r] => r
  | _ =>
    let WeightedTimeSum :=
      (Cluster.map (fun r => r.Time * (getWeightForMethod W r.Source * r.Confidence))).sum
    let TotalWeight :=
      (Cluster.map (fun r => getWeightForMethod W r.Source * r.Confidence)).sum
    let MaxConfidence := Cluster.foldl (fun acc r => max acc r.Confidence) 0
    let ContactVotes := (Cluster.filter (fun r => r.bIsContact)).length
    let LiftOffVotes := (Cluster.filter (fun r => !r.bIsContact)).length
    let MergedTime :=
      if TotalWeight > kindaSmallNumber α then WeightedTimeSum / TotalWeight
      else (Cluster.map (fun r => r.Time)).sum / (Cluster.length : α)
    ⟨MergedTime,
     fclamp (MaxConfidence + ((Cluster.length - 1 : ℕ) : α) * S.DetectorAgreementBonus) 0 1,
     decide (LiftOffVotes ≤ ContactVotes),
     EFootContactDetectionMethod.Composite⟩

/-- Time comparison used to sort the combined result array in
`FCompositeDetector::MergeResults`. -/
def resultTimeLE {α : Type} [LinearOrderedField α]
    (a b : FFootContactResult α) : Prop := a.Time ≤ b.Time

instance {α : Type} [LinearOrderedField α] :
    DecidableRel (resultTimeLE (α := α)) :=
  fun a b => inferInstanceAs (Decidable (a.Time ≤ b.Time))

instance {α : Type} [LinearOrderedField α] :
    IsTotal (FFootContactResult α) resultTimeLE :=
  ⟨fun a b => le_total a.Time b.Time⟩

instance {α : Type} [LinearOrderedField α] :
    IsTrans (FFootContactResult α) resultTimeLE :=
  ⟨fun _ _ _ h1 h2 => le_trans h1 h2⟩

/-- `FCompositeDetector::MergeResults`: concatenate the three result arrays,
return empty when nothing was found, sort ascending by time, cluster by time
proximity, and fuse every non-empty cluster. -/
def mergeResults {α : Type} [LinearOrderedField α]
    (S : UFootSyncMarkerSettings α) (W : FCompositeDetectionWeights α)
    (PelvisResults VelocityResults SaliencyResults : List (FFootContactResult α)) :
    List (FFootContactResult α) :=
  let AllResults := PelvisResults ++ VelocityResults ++ SaliencyResults
  if AllResults.length = 0 then []
  else
    let SortedResults := List.insertionSort resultTimeLE AllResults
    let Clusters := clusterResultsByTime SortedResults S.ResultMergeThreshold
    Clusters.filterMap (fun c =>
      if c.length > 0 then some (calculateClusterResult S W c) else none)

/-! ### VelocityCurveDetector -/

/-- UE `FVector::Size()` = `sqrt(X*X + Y*Y + Z*Z)`, over the reals. -/
noncomputable def Vec3.size (v : Vec3 ℝ) : ℝ :=
  Real.sqrt (v.x * v.x + v.y * v.y + v.z * v.z)

/-- The zero vector, used as the (unreachable) default for in-bounds index
accesses. -/
def zeroVec : Vec3 ℝ := ⟨0, 0, 0⟩

/-- The per-index body of `FVelocityCurveDetector::CalculateVelocities`:
forward difference at index 0, backward difference at the last index, central
difference (over the combined interval) in the interior, each guarded by the
epsilon check on the time delta. -/
noncomputable def velocityAt (Positions : List (Vec3 ℝ)) (Times : List ℝ) (i : ℕ) : ℝ :=
  if i = 0 then
    let DeltaTime := Times.getD 1 0 - Times.getD 0 0
    if DeltaTime > kindaSmallNumber ℝ then
      (Vec3.sub (Positions.getD 1 zeroVec) (Positions.getD 0 zeroVec)).size / DeltaTime
    else 0
  else if i = Positions.length - 1 then
    let DeltaTime := Times.getD i 0 - Times.getD (i - 1) 0
    if DeltaTime > kindaSmallNumber ℝ then
      (Vec3.sub (Positions.getD i zeroVec) (Positions.getD (i - 1) zeroVec)).size / DeltaTime
    else 0
  else
    let DeltaTime1 := Times.getD i 0 - Times.getD (i - 1) 0
    let DeltaTime2 := Times.getD (i + 1) 0 - Times.getD i 0
    let TotalDeltaTime := DeltaTime1 + DeltaTime2
    if TotalDeltaTime > kindaSmallNumber ℝ then
      (Vec3.sub (Positions.getD (i + 1) zeroVec) (Positions.getD (i - 1) zeroVec)).size /
        TotalDeltaTime
    else 0

/-- `FVelocityCurveDetector::CalculateVelocities` (after the world-space
positions have been extracted from the poses). -/
noncomputable def calculateVelocities (Positions : List (Vec3 ℝ)) (Times : List ℝ) :
    List ℝ :=
  if Positions.length < 2 then []
  else (List.range Positions.length).map (velocityAt Positions Times)

/-- `FVelocityCurveDetector::FindLocalMinima`: interior strict/plateau minima
below the threshold, plus the edge samples when below the threshold and lower
than their single neighbour. -/
def findLocalMinima {α : Type} [LinearOrderedField α]
    (Velocities : List α) (Threshold : α) : List ℕ :=
  if Velocities.length < 3 then []
  else
    let InteriorMinima := (List.range' 1 (Velocities.length - 2)).filterMap (fun i =>
      let Prev := Velocities.getD (i - 1) 0
      let Curr := Velocities.getD i 0
      let Next := Velocities.getD (i + 1) 0
      if Curr < Prev ∧ Curr < Next then
        (if Curr < Threshold then some i else none)
      else if Curr ≤ Prev ∧ Curr < Next ∧ Curr < Threshold then some i
      else if Curr < Prev ∧ Curr ≤ Next ∧ Curr < Threshold then some i
      else none)
    let WithFirst :=
      if Velocities.getD 0 0 < Threshold ∧ Velocities.getD 0 0 < Velocities.getD 1 0 then
        0 :: InteriorMinima
      else InteriorMinima
    let LastIndex := Velocities.length - 1
    if Velocities.getD LastIndex 0 < Threshold ∧
        Velocities.getD LastIndex 0 < Velocities.getD (LastIndex - 1) 0 then
      WithFirst ++ [LastIndex]
    else WithFirst

/-- `FVelocityCurveDetector::DetectContacts`: guards (null sequence, missing
foot bone, fewer than 3 keys, pose-count mismatch, fewer than 3 velocity
samples), then local-minima search below the (possibly overridden) threshold,
with confidence `1 - clamp(v / maxV, 0, 0.9)` (or the default when the max
velocity is below epsilon); every result is a contact. The preset parameter
is received but never read. -/
noncomputable def velocityDetectContacts (S : UFootSyncMarkerSettings ℝ)
    (ThresholdOverride : Option ℝ) (anim : AnimSamples ℝ)
    (Foot : FSyncFootDefinition) (_Preset : FLocomotionPreset ℝ) :
    List (FFootContactResult ℝ) :=
  if anim.isNull || Foot.BoneName.isNone then []
  else if anim.times.length < 3 then []
  else if anim.worldPositions.length ≠ anim.times.length then []
  else
    let Velocities := calculateVelocities anim.worldPositions anim.times
    if Velocities.length < 3 then []
    else
      let Threshold := ThresholdOverride.getD S.VelocityMinimumThreshold
      let MinimaIndices := findLocalMinima Velocities Threshold
      let MaxVelocity := Velocities.foldl (fun acc v => max acc v) 0
      MinimaIndices.filterMap (fun Index =>
        if Index < anim.times.length then
          some ⟨anim.times.getD Index 0,
            (if MaxVelocity > kindaSmallNumber ℝ then
              1 - fclamp (Velocities.getD Index 0 / MaxVelocity) 0 (9 / 10)
             else S.VelocityDefaultConfidence),
            true, EFootContactDetectionMethod.VelocityCurve⟩
        else none)

/-! ### SaliencyDetector -/

/-- `FSaliencyDetector::CalculatePointCurvature`: Menger curvature
`2 * |cross(P1-P0, P2-P0)| / (|P0P1| * |P1P2| * |P2P0|)`, zero when the
side-length product is below epsilon. -/
noncomputable def calculatePointCurvature (P0 P1 P2 : Vec3 ℝ) : ℝ :=
  let V1 := Vec3.sub P1 P0
  let V2 := Vec3.sub P2 P0
  let V3 := Vec3.sub P2 P1
  let A := V1.size
  let B := V3.size
  let C := V2.size
  let TriangleAreaTimesTwo := (Vec3.cross V1 V2).size
  let Denominator := A * B * C
  if Denominator < kindaSmallNumber ℝ then 0
  else 2 * TriangleAreaTimesTwo / Denominator

/-- `FSaliencyDetector::CalculateCurvature`: zero at the first and last
sample, Menger curvature at interior samples; empty when fewer than 3
positions. -/
noncomputable def calculateCurvature (Positions : List (Vec3 ℝ)) : List ℝ :=
  if Positions.length < 3 then []
  else
    (0 : ℝ) :: (((List.range' 1 (Positions.length - 2)).map (fun i =>
      calculatePointCurvature (Positions.getD (i - 1) zeroVec) (Positions.getD i zeroVec)
        (Positions.getD (i + 1) zeroVec))) ++ [0])

/-- The curvature-derivative pass of `FSaliencyDetector::FindSalientPoints`:
zero at index 0, then `|Δcurvature| / Δtime` guarded by the epsilon check on
the time delta. -/
def curvatureDerivatives {α : Type} [LinearOrderedField α]
    (Curvatures Times : List α) : List α :=
  (0 : α) :: (List.range' 1 (Curvatures.length - 1)).map (fun i =>
    let DeltaTime := Times.getD i 0 - Times.getD (i - 1) 0
    if DeltaTime > kindaSmallNumber α then
      |Curvatures.getD i 0 - Curvatures.getD (i - 1) 0| / DeltaTime
    else 0)

/-- The adaptive threshold of `FSaliencyDetector::FindSalientPoints`:
`mean + Threshold * (max - mean)` over the curvature derivatives. -/
def adaptiveThreshold {α : Type} [LinearOrderedField α]
    (CurvatureDerivs : List α) (Threshold : α) : α :=
  let MeanDerivative := CurvatureDerivs.sum / (CurvatureDerivs.length : α)
  let MaxDerivative := CurvatureDerivs.foldl (fun acc d => max acc d) 0
  MeanDerivative + Threshold * (MaxDerivative - MeanDerivative)

/-- The per-index salience test of `FSaliencyDetector::FindSalientPoints`:
a strict curvature peak, or a curvature derivative (at `i` or `i + 1`,
bounds-checked) above the adaptive threshold. -/
def isSalientCandidate {α : Type} [LinearOrderedField α]
    (Curvatures CurvatureDerivs : List α) (Adaptive : α) (i : ℕ) : Bool :=
  (decide (Curvatures.getD (i - 1) 0 < Curvatures.getD i 0) &&
   decide (Curvatures.getD (i + 1) 0 < Curvatures.getD i 0)) ||
  (decide (Adaptive < CurvatureDerivs.getD i 0) ||
   (decide (i + 1 < CurvatureDerivs.length) &&
    decide (Adaptive < CurvatureDerivs.getD (i + 1) 0)))

/-- One step of the non-maximum-suppression loop of
`FSaliencyDetector::FindSalientPoints`: a salient candidate is appended
unless an already-accepted index lies within `WindowSize` seconds of it. -/
def nmsStep {α : Type} [LinearOrderedField α]
    (Curvatures CurvatureDerivs Times : List α) (Adaptive WindowSize : α)
    (acc : List ℕ) (i : ℕ) : List ℕ :=
  if isSalientCandidate Curvatures CurvatureDerivs Adaptive i then
    if acc.any (fun j => decide (|Times.getD i 0 - Times.getD j 0| < WindowSize)) then acc
    else acc ++ [i]
  else acc

/-- `FSaliencyDetector::FindSalientPoints`: guard, curvature derivatives,
adaptive threshold, then the candidate scan with non-maximum suppression over
interior indices `1 .. Num-2` in ascending order. -/
def findSalientPoints {α : Type} [LinearOrderedField α]
    (Curvatures Times : List α) (WindowSize Threshold : α) : List ℕ :=
  if Curvatures.length < 3 ∨ Times.length ≠ Curvatures.length then []
  else
    let CurvatureDerivs := curvatureDerivatives Curvatures Times
    let Adaptive := adaptiveThreshold CurvatureDerivs Threshold
    (List.range' 1 (Curvatures.length - 2)).foldl
      (nmsStep Curvatures CurvatureDerivs Times Adaptive WindowSize) []

/-- `FSaliencyDetector::IsFootContact`: compare mean heights (Z) of a ±2
sample window before and after the salient index against the height at the
index; contact when the height was decreasing into the point or will not
increase after it; edge indices default to contact. -/
noncomputable def isFootContact (Positions : List (Vec3 ℝ)) (SalientIndex : ℕ) : Bool :=
  if SalientIndex = 0 ∨ Positions.length - 1 ≤ SalientIndex then true
  else
    let WindowStart := SalientIndex - 2
    let WindowEnd := min (Positions.length - 1) (SalientIndex + 2)
    let BeforeIdxs := List.range' WindowStart (SalientIndex - WindowStart)
    let CountBefore := BeforeIdxs.length
    let HeightBefore :=
      if 0 < CountBefore then
        (BeforeIdxs.map (fun i => (Positions.getD i zeroVec).z)).sum / (CountBefore : ℝ)
      else 0
    let AfterIdxs := List.range' (SalientIndex + 1) (WindowEnd - SalientIndex)
    let CountAfter := AfterIdxs.length
    let HeightAfter :=
      if 0 < CountAfter then
        (AfterIdxs.map (fun i => (Positions.getD i zeroVec).z)).sum / (CountAfter : ℝ)
      else 0
    let HeightAtPoint := (Positions.getD SalientIndex zeroVec).z
    decide (HeightAtPoint < HeightBefore) || !(decide (HeightAtPoint < HeightAfter))

/-- `FSaliencyDetector::DetectContacts`: guards (null sequence, missing foot
bone, fewer than 4 keys, pose-count mismatch, fewer than 3 curvature samples),
salient-point search at the (possibly overridden) threshold, confidence
`clamp(curvature / maxCurvature, SaliencyMinConfidence, 1)` (or the default
when the max curvature is below epsilon), and contact classification by the
height heuristic. The preset parameter is received but never read. -/
noncomputable def saliencyDetectContacts (S : UFootSyncMarkerSettings ℝ)
    (ThresholdOverride : Option ℝ) (anim : AnimSamples ℝ)
    (Foot : FSyncFootDefinition) (_Preset : FLocomotionPreset ℝ) :
    List (FFootContactResult ℝ) :=
  if anim.isNull || Foot.BoneName.isNone then []
  else if anim.times.length < 4 then []
  else if anim.worldPositions.length ≠ anim.times.length then []
  else
    let Curvatures := calculateCurvature anim.worldPositions
    if Curvatures.length < 3 then []
    else
      let Threshold := ThresholdOverride.getD S.SaliencyThreshold
      let SalientIndices := findSalientPoints Curvatures anim.times S.SaliencyWindowSize Threshold
      let MaxCurvature := Curvatures.foldl (fun acc c => max acc c) 0
      SalientIndices.filterMap (fun Index =>
        if Index < anim.times.length ∧ Index < Curvatures.length then
          some ⟨anim.times.getD Index 0,
            (if MaxCurvature > kindaSmallNumber ℝ then
              fclamp (Curvatures.getD Index 0 / MaxCurvature) S.SaliencyMinConfidence 1
             else S.SaliencyDefaultConfidence),
            isFootContact anim.worldPositions Index,
            EFootContactDetectionMethod.Saliency⟩
        else none)

/-- `FCompositeDetector::DetectContacts`: run each leaf detector only when its
weight exceeds epsilon, then merge. -/
noncomputable def compositeDetectContacts (S : UFootSyncMarkerSettings ℝ)
    (W : FCompositeDetectionWeights ℝ) (VelocityOverride SaliencyOverride : Option ℝ)
    (anim : AnimSamples ℝ) (Foot : FSyncFootDefinition) (Preset : FLocomotionPreset ℝ) :
    List (FFootContactResult ℝ) :=
  let PelvisResults :=
    if W.PelvisCrossingWeight > kindaSmallNumber ℝ then
      pelvisDetectContacts S anim Foot Preset
    else []
  let VelocityResults :=
    if W.VelocityCurveWeight > kindaSmallNumber ℝ then
      velocityDetectContacts S VelocityOverride anim Foot Preset
    else []
  let SaliencyResults :=
    if W.SaliencyWeight > kindaSmallNumber ℝ then
      saliencyDetectContacts S SaliencyOverride anim Foot Preset
    else []
  mergeResults S W PelvisResults VelocityResults SaliencyResults

/-! ### Spec-comparison definitions (refinement checks)

These two definitions follow the specification's words, not the source; they
exist only to be compared against the source-derived definitions above. -/

/-- Chained-distance clustering rule described (and contrasted) by the spec:
membership is judged against the previous element's time, so the window
slides with every appended result. Defined only for comparison with the
anchor-based `clusterResultsByTime`. -/
def clusterChainedLoop {α : Type} [LinearOrderedField α] (MergeThreshold : α) :
    List (FFootContactResult α) → List (FFootContactResult α) → α →
    List (List (FFootContactResult α))
  | [], CurrentCluster, _ => [CurrentCluster]
  | r :: rest, CurrentCluster, PrevTime =>
      if r.Time - PrevTime ≤ MergeThreshold then
        clusterChainedLoop MergeThreshold rest (CurrentCluster ++ [r]) r.Time
      else
        CurrentCluster :: clusterChainedLoop MergeThreshold rest [r] r.Time

/-- Entry point of the chained-distance rule, mirroring the shape of
`clusterResultsByTime`. -/
def clusterChainedSpec {α : Type} [LinearOrderedField α]
    (AllResults : List (FFootContactResult α)) (MergeThreshold : α) :
    List (List (FFootContactResult α)) :=
  match AllResults with
  | [] => []
  | r :: rest => clusterChainedLoop MergeThreshold rest [r] r.Time

/-- Movement-axis selection as the spec words it: use the configured axis when
one is supplied, auto-determine from the trajectory only when it is absent.
Defined only for comparison with the code, which always auto-determines. -/
def specSuppliedMoveAxis {α : Type} [LinearOrderedField α]
    (ConfigAxis : Option (Vec3 α)) (Positions : List (Vec3 α)) : Vec3 α :=
  ConfigAxis.getD (determinePrimaryMoveAxis Positions)

/-! ### Proof-infrastructure predicates -/

/-- Every member of cluster `c` has its time within
`[a, a + MergeThreshold]`. -/
def clusterBounded {α : Type} [LinearOrderedField α] (MergeThreshold a : α)
    (c : List (FFootContactResult α)) : Prop :=
  ∀ m ∈ c, a ≤ m.Time ∧ m.Time ≤ a + MergeThreshold

/-- Relation between clusters produced by the clustering loop: both
non-empty and bounded by anchors separated by more than the merge
threshold. -/
def clusterSep {α : Type} [LinearOrderedField α] (MergeThreshold : α)
    (c d : List (FFootContactResult α)) : Prop :=
  ∃ b1 b2, c ≠ [] ∧ d ≠ [] ∧ clusterBounded MergeThreshold b1 c ∧
    clusterBounded MergeThreshold b2 d ∧ b1 + MergeThreshold < b2

/-! ### Concrete scenario inputs used by the claims -/

/-- Foot definition with a valid (non-none) bone name. -/
def okFoot : FSyncFootDefinition := ⟨⟨false⟩⟩

/-- Foot definition whose bone name is none. -/
def noneFoot : FSyncFootDefinition := ⟨⟨true⟩⟩

/-- Preset with a valid pelvis bone and the default forward movement axis. -/
def okPreset (α : Type) [LinearOrderedField α] : FLocomotionPreset α :=
  ⟨⟨false⟩, forwardVector⟩

/-- Preset whose pelvis bone name is none. -/
def noPelvisPreset (α : Type) [LinearOrderedField α] : FLocomotionPreset α :=
  ⟨⟨true⟩, forwardVector⟩

/-- Animation input with no samples at all. -/
def emptyAnim (α : Type) [LinearOrderedField α] : AnimSamples α := ⟨false, [], [], []⟩

/-- Claim C1 scenario: three results at times 0, 0.04 and 0.08. -/
def c1ResultA : FFootContactResult ℚ :=
  ⟨0, 1 / 2, true, EFootContactDetectionMethod.PelvisCrossing⟩

/-- Second C1 result, at time 0.04. -/
def c1ResultB : FFootContactResult ℚ :=
  ⟨1 / 25, 1 / 2, true, EFootContactDetectionMethod.VelocityCurve⟩

/-- Third C1 result, at time 0.08. -/
def c1ResultC : FFootContactResult ℚ :=
  ⟨2 / 25, 1 / 2, true, EFootContactDetectionMethod.Saliency⟩

/-- Claim C2 scenario: pelvis-relative positions projecting to [-1, 1] at
times [0, 1]. -/
def c2Anim : AnimSamples ℚ := ⟨false, [0, 1], [⟨-1, 0, 0⟩, ⟨1, 0, 0⟩], []⟩

/-- Claim C3 scenario: the PelvisCrossing member at t = 0.50, confidence
0.6. -/
def c3Pelvis : FFootContactResult ℚ :=
  ⟨1 / 2, 3 / 5, true, EFootContactDetectionMethod.PelvisCrossing⟩

/-- Claim C3 scenario: the VelocityCurve member at t = 0.52, confidence
0.8. -/
def c3Velocity : FFootContactResult ℚ :=
  ⟨13 / 25, 4 / 5, true, EFootContactDetectionMethod.VelocityCurve⟩

/-- Default settings with an arbitrary detector-agreement bonus, for the C3
fusion scenario. -/
def c3Settings (bonus : ℚ) : UFootSyncMarkerSettings ℚ :=
  ⟨50, 7 / 10, 5, 1 / 2, 1 / 10, 1 / 2, 1 / 2, 3 / 10, 1 / 20, bonus⟩

/-- Claim C5 scenario: a Y-dominant pelvis-relative trajectory (constant
X = 5, Y swinging from -1 to 1). -/
def c5Anim : AnimSamples ℚ := ⟨false, [0, 1], [⟨5, -1, 0⟩, ⟨5, 1, 0⟩], []⟩

/-- Claim C4 scenario: world-space foot motion along X at times [0, 1, 2]
(velocities 10, 5.25, 0.5), with a valid foot bone. -/
noncomputable def c4Anim : AnimSamples ℝ :=
  ⟨false, [0, 1, 2], [], [⟨0, 0, 0⟩, ⟨10, 0, 0⟩, ⟨21 / 2, 0, 0⟩]⟩

/-- Claim C7 witness scenario: four perfectly collinear world-space samples
along the X axis. -/
def c7Anim : AnimSamples ℝ :=
  ⟨false, [0, 1, 2, 3], [], [⟨0, 0, 0⟩, ⟨1, 0, 0⟩, ⟨2, 0, 0⟩, ⟨3, 0, 0⟩]⟩

/-! ## Theorems -/

/-- Claim C1, counterexample: for three results at times {0, 0.04, 0.08} and
merge threshold 0.05, the code's anchor-based `ClusterResultsByTime` does not
put all three into one cluster — it produces two. -/
theorem c1_counterexample :
    (clusterResultsByTime [c1ResultA, c1ResultB, c1ResultC] (1 / 20)).length ≠ 1 := by
  norm_num [clusterResultsByTime, clusterLoop, c1ResultA, c1ResultB, c1ResultC]

/-- Claim C1, amended: membership is judged against the cluster's anchor
(first) element's time, which does not slide, so results at {0, 0.04, 0.08}
with merge threshold 0.05 split into the two clusters [[0, 0.04], [0.08]]
(0.08 − 0 exceeds the threshold); the spec's contrasted distance-to-previous
rule would instead merge all three into one cluster. -/
theorem c1_amended :
    clusterResultsByTime [c1ResultA, c1ResultB, c1ResultC] (1 / 20) =
      [[c1ResultA, c1ResultB], [c1ResultC]] ∧
    clusterChainedSpec [c1ResultA, c1ResultB, c1ResultC] (1 / 20) =
      [[c1ResultA, c1ResultB, c1ResultC]] := by
  constructor
  · norm_num [clusterResultsByTime, clusterLoop, c1ResultA, c1ResultB, c1ResultC]
  · norm_num [clusterChainedSpec, clusterChainedLoop, c1ResultA, c1ResultB, c1ResultC]

/-- Claim C3, counterexample: with the default method weights (pelvis 0.4,
velocity 0.3), the combined per-member weights of the cluster
{pelvis@0.50 conf 0.6, velocity@0.52 conf 0.8} tie (0.4·0.6 = 0.3·0.8), so
the fused time is exactly the midpoint 0.51 — not biased toward the velocity
sample. -/
theorem c3_counterexample :
    getWeightForMethod (defaultWeights ℚ) EFootContactDetectionMethod.VelocityCurve *
        c3Velocity.Confidence =
      getWeightForMethod (defaultWeights ℚ) EFootContactDetectionMethod.PelvisCrossing *
        c3Pelvis.Confidence ∧
    (calculateClusterResult (defaultSettings ℚ) (defaultWeights ℚ)
        [c3Pelvis, c3Velocity]).Time = (c3Pelvis.Time + c3Velocity.Time) / 2 := by
  constructor
  · norm_num [getWeightForMethod, defaultWeights, c3Pelvis, c3Velocity]
  · norm_num [calculateClusterResult, getWeightForMethod, defaultSettings, defaultWeights,
      c3Pelvis, c3Velocity, kindaSmallNumber]

/-- Claim C5, counterexample: on a Y-dominant trajectory with a supplied
forward (X) axis in the preset, the code auto-determines and uses the right
(Y) axis — the spec's supplied-axis rule would pick forward — and the
detector emits crossings found along Y even though the projections onto the
supplied axis are [5, 5] with no sign change at all. -/
theorem c5_counterexample :
    determinePrimaryMoveAxis c5Anim.relPositions = rightVector ∧
    specSuppliedMoveAxis (some (okPreset ℚ).PrimaryMoveAxis) c5Anim.relPositions =
      forwardVector ∧
    (rightVector : Vec3 ℚ) ≠ forwardVector ∧
    (pelvisDetectContacts (defaultSettings ℚ) c5Anim okFoot (okPreset ℚ)).map
      (fun r => r.Time) = [1 / 2, 1] ∧
    c5Anim.relPositions.map (fun p => Vec3.dot p (okPreset ℚ).PrimaryMoveAxis) = [5, 5] := by
  refine ⟨?_, ?_, ?_, ?_, ?_⟩
  · norm_num [determinePrimaryMoveAxis, c5Anim]
  · norm_num [specSuppliedMoveAxis, okPreset]
  · norm_num [rightVector, forwardVector, Vec3.mk.injEq]
  · norm_num [pelvisDetectContacts, c5Anim, okFoot, okPreset, defaultSettings,
      determinePrimaryMoveAxis, findCrossings, interpolateCrossingTime, fclamp,
      rightVector, forwardVector, Vec3.dot, kindaSmallNumber]
  · norm_num [c5Anim, okPreset, Vec3.dot, forwardVector]

/-- Claim C5, amended: `FPelvisCrossingDetector` always auto-determines the
movement axis from the trajectory (larger of the X and Y bounding ranges);
the preset's configured `PrimaryMoveAxis` is never consulted, so two presets
that agree on the pelvis bone name produce identical output. -/
theorem c5_amended {α : Type} [LinearOrderedField α] (S : UFootSyncMarkerSettings α)
    (anim : AnimSamples α) (Foot : FSyncFootDefinition)
    (P1 P2 : FLocomotionPreset α) (h : P1.PelvisBoneName = P2.PelvisBoneName) :
    pelvisDetectContacts S anim Foot P1 = pelvisDetectContacts S anim Foot P2 := by
  obtain ⟨n1, a1⟩ := P1
  obtain ⟨n2, a2⟩ := P2
  cases h
  rfl

/-- Witness for `c5_amended` at a concrete input: identical output under the
forward and right configured axes. -/
theorem c5_amended_witness :
    pelvisDetectContacts (defaultSettings ℚ) c5Anim okFoot ⟨⟨false⟩, forwardVector⟩ =
      pelvisDetectContacts (defaultSettings ℚ) c5Anim okFoot ⟨⟨false⟩, rightVector⟩ :=
  c5_amended (defaultSettings ℚ) c5Anim okFoot ⟨⟨false⟩, forwardVector⟩
    ⟨⟨false⟩, rightVector⟩ rfl

/-- Claim C2: for pelvis-relative positions projecting to [-1, 1] at times
[0, 1], the detector returns exactly one contact, at t = 0.5, with confidence
`clamp(2 / PelvisConfidenceScale, 0.5, 1.0)` (the crossing time comes from the
linear interpolation clamped into [0, 1]); the additionally emitted
loop-boundary result is a lift-off, not a contact. -/
theorem c2_single_contact (S : UFootSyncMarkerSettings ℚ) :
    (pelvisDetectContacts S c2Anim okFoot (okPreset ℚ)).filter (fun r => r.bIsContact) =
      [⟨1 / 2, fclamp (2 / S.PelvisConfidenceScale) (1 / 2) 1, true,
        EFootContactDetectionMethod.PelvisCrossing⟩] := by
  norm_num [pelvisDetectContacts, c2Anim, okFoot, okPreset, determinePrimaryMoveAxis,
    findCrossings, interpolateCrossingTime, fclamp, forwardVector, rightVector,
    Vec3.dot, kindaSmallNumber, List.filter]

/-- Witness for `c2_single_contact` at the default settings: the single
contact has confidence clamp(2/50, 0.5, 1) = 0.5. -/
theorem c2_single_contact_witness :
    (pelvisDetectContacts (defaultSettings ℚ) c2Anim okFoot (okPreset ℚ)).filter
      (fun r => r.bIsContact) =
      [⟨1 / 2, 1 / 2, true, EFootContactDetectionMethod.PelvisCrossing⟩] :=
  (c2_single_contact (defaultSettings ℚ)).trans (by norm_num [fclamp, defaultSettings])

/-- Claim C3, amended: the pelvis result at t = 0.50 (weight 0.4, confidence
0.6) and the velocity result at t = 0.52 (weight 0.3, confidence 0.8) cluster
together under merge threshold 0.05; the fused confidence is
`clamp(max(0.6, 0.8) + 1·AgreementBonus, 0, 1)` and the fused time is the
weighted average with per-member weight = method weight · confidence — here
the combined weights tie (0.24 each), so the fused time is exactly the
midpoint 0.51, with no bias toward the velocity sample. -/
theorem c3_amended (bonus : ℚ) :
    mergeResults (c3Settings bonus) (defaultWeights ℚ) [c3Pelvis] [c3Velocity] [] =
      [⟨51 / 100, fclamp (4 / 5 + bonus) 0 1, true, EFootContactDetectionMethod.Composite⟩] := by
  norm_num [mergeResults, c3Settings, defaultWeights, c3Pelvis, c3Velocity, resultTimeLE,
    clusterResultsByTime, clusterLoop, calculateClusterResult, getWeightForMethod,
    kindaSmallNumber, List.filterMap_cons, List.sum_cons, List.filter]

/-- Witness for `c3_amended` at the default agreement bonus 0.1: fused result
(0.51, 0.9, contact, Composite). -/
theorem c3_amended_witness :
    mergeResults (c3Settings (1 / 10)) (defaultWeights ℚ) [c3Pelvis] [c3Velocity] [] =
      [⟨51 / 100, 9 / 10, true, EFootContactDetectionMethod.Composite⟩] :=
  (c3_amended (1 / 10)).trans (by norm_num [fclamp])

/-- Claim C4, amended: a missing pelvis bone reference empties only
PelvisCrossing; VelocityCurve and Saliency never read the preset (so their
output is independent of the pelvis reference and may be non-empty); a null
sequence or missing foot bone empties all three detectors, always by
returning an empty list rather than a fault. -/
theorem c4_amended (S : UFootSyncMarkerSettings ℝ) (vOv sOv : Option ℝ)
    (anim : AnimSamples ℝ) (Foot : FSyncFootDefinition) (P1 P2 : FLocomotionPreset ℝ) :
    (P1.PelvisBoneName.isNone = true → pelvisDetectContacts S anim Foot P1 = []) ∧
    (Foot.BoneName.isNone = true →
      pelvisDetectContacts S anim Foot P1 = [] ∧
      velocityDetectContacts S vOv anim Foot P1 = [] ∧
      saliencyDetectContacts S sOv anim Foot P1 = []) ∧
    (anim.isNull = true →
      pelvisDetectContacts S anim Foot P1 = [] ∧
      velocityDetectContacts S vOv anim Foot P1 = [] ∧
      saliencyDetectContacts S sOv anim Foot P1 = []) ∧
    velocityDetectContacts S vOv anim Foot P1 = velocityDetectContacts S vOv anim Foot P2 ∧
    saliencyDetectContacts S sOv anim Foot P1 = saliencyDetectContacts S sOv anim Foot P2 := by
  refine ⟨fun h => ?_, fun h => ⟨?_, ?_, ?_⟩, fun h => ⟨?_, ?_, ?_⟩, rfl, rfl⟩ <;>
    simp [pelvisDetectContacts, velocityDetectContacts, saliencyDetectContacts, h]

/-- Witness for `c4_amended`: concrete empty outputs under a missing pelvis
reference (PelvisCrossing) and under a missing foot bone (all three). -/
theorem c4_amended_witness :
    pelvisDetectContacts (defaultSettings ℝ) (emptyAnim ℝ) okFoot (noPelvisPreset ℝ) = [] ∧
    velocityDetectContacts (defaultSettings ℝ) none (emptyAnim ℝ) noneFoot (okPreset ℝ) = [] ∧
    saliencyDetectContacts (defaultSettings ℝ) none (emptyAnim ℝ) noneFoot (okPreset ℝ) = [] :=
  ⟨(c4_amended (defaultSettings ℝ) none none (emptyAnim ℝ) okFoot (noPelvisPreset ℝ)
      (okPreset ℝ)).1 rfl,
   ((c4_amended (defaultSettings ℝ) none none (emptyAnim ℝ) noneFoot (okPreset ℝ)
      (okPreset ℝ)).2.1 rfl).2.1,
   ((c4_amended (defaultSettings ℝ) none none (emptyAnim ℝ) noneFoot (okPreset ℝ)
      (okPreset ℝ)).2.1 rfl).2.2⟩

/-- Claim C9: every sample sequence shorter than the detector's minimum — 2
keys for PelvisCrossing, 3 for VelocityCurve, 4 for Saliency — yields an
empty result list. -/
theorem c9_min_samples {α : Type} [LinearOrderedField α]
    (Sq : UFootSyncMarkerSettings α) (S : UFootSyncMarkerSettings ℝ)
    (vOv sOv : Option ℝ) (animq : AnimSamples α) (anim : AnimSamples ℝ)
    (Foot : FSyncFootDefinition) (Presetq : FLocomotionPreset α)
    (Preset : FLocomotionPreset ℝ) :
    (animq.times.length < 2 → pelvisDetectContacts Sq animq Foot Presetq = []) ∧
    (anim.times.length < 3 → velocityDetectContacts S vOv anim Foot Preset = []) ∧
    (anim.times.length < 4 → saliencyDetectContacts S sOv anim Foot Preset = []) := by
  refine ⟨fun h => ?_, fun h => ?_, fun h => ?_⟩
  · simp [pelvisDetectContacts, h]
  · simp [velocityDetectContacts, h]
  · simp [saliencyDetectContacts, h]

/-- Witness for `c9_min_samples`: the empty animation input makes all three
detectors return the empty list. -/
theorem c9_min_samples_witness :
    pelvisDetectContacts (defaultSettings ℚ) (emptyAnim ℚ) okFoot (okPreset ℚ) = [] ∧
    velocityDetectContacts (defaultSettings ℝ) none (emptyAnim ℝ) okFoot (okPreset ℝ) = [] ∧
    saliencyDetectContacts (defaultSettings ℝ) none (emptyAnim ℝ) okFoot (okPreset ℝ) = [] :=
  ⟨(c9_min_samples (defaultSettings ℚ) (defaultSettings ℝ) none none (emptyAnim ℚ)
      (emptyAnim ℝ) okFoot (okPreset ℚ) (okPreset ℝ)).1 (by decide),
   (c9_min_samples (defaultSettings ℚ) (defaultSettings ℝ) none none (emptyAnim ℚ)
      (emptyAnim ℝ) okFoot (okPreset ℚ) (okPreset ℝ)).2.1 (by decide),
   (c9_min_samples (defaultSettings ℚ) (defaultSettings ℝ) none none (emptyAnim ℚ)
      (emptyAnim ℝ) okFoot (okPreset ℚ) (okPreset ℝ)).2.2 (by decide)⟩

/-- Bounds of `FMath::Clamp`: when `lo ≤ hi` the result lies in `[lo, hi]`. -/
theorem fclamp_bounds {α : Type} [LinearOrderedField α] (x lo hi : α) (h : lo ≤ hi) :
    lo ≤ fclamp x lo hi ∧ fclamp x lo hi ≤ hi := by
  unfold fclamp
  split_ifs with h1 h2
  · exact ⟨le_refl _, h⟩
  · exact ⟨not_lt.mp h1, le_of_lt h2⟩
  · exact ⟨h, le_refl _⟩

/-- The interpolated crossing time always lies in the source interval. -/
theorem interpolate_bounds {α : Type} [LinearOrderedField α] (t1 p1 t2 p2 : α)
    (h : t1 ≤ t2) :
    t1 ≤ interpolateCrossingTime t1 p1 t2 p2 ∧ interpolateCrossingTime t1 p1 t2 p2 ≤ t2 := by
  simp only [interpolateCrossingTime]
  split_ifs with h1
  · constructor <;> [linarith; linarith]
  · exact fclamp_bounds _ _ _ h

/-- Every crossing result's time is below any upper bound of the sample
times. -/
theorem findCrossings_upper {α : Type} [LinearOrderedField α] (S : UFootSyncMarkerSettings α) :
    ∀ (ts ps : List α) (u : α), ts.Chain' (· ≤ ·) → (∀ x ∈ ts, x ≤ u) →
      ∀ r ∈ findCrossings S ts ps, r.Time ≤ u := by
  intro ts
  induction ts with
  | nil => intro ps u _ _ r hr; simp [findCrossings] at hr
  | cons t1 rest ih =>
    intro ps u hch hu r hr
    match rest, ps with
    | [], _ => simp [findCrossings] at hr
    | t2 :: ts', [] => simp [findCrossings] at hr
    | t2 :: ts', [p1] => simp [findCrossings] at hr
    | t2 :: ts', p1 :: p2 :: ps' =>
      rw [findCrossings] at hr
      rcases List.mem_append.mp hr with hr | hr
      · by_cases hc : p1 * p2 < 0
        · rw [if_pos hc] at hr
          rcases List.mem_singleton.mp hr with rfl
          have ht12 : t1 ≤ t2 := (List.chain'_cons.mp hch).1
          exact le_trans (interpolate_bounds t1 p1 t2 p2 ht12).2
            (hu t2 (List.mem_cons_of_mem _ (List.mem_cons_self _ _)))
        · rw [if_neg hc] at hr; simp at hr
      · exact ih (p2 :: ps') u (List.chain'_cons.mp hch).2
          (fun x hx => hu x (List.mem_cons_of_mem _ hx)) r hr

/-- Every crossing result's time is above any lower bound of the sample
times. -/
theorem findCrossings_lower {α : Type} [LinearOrderedField α] (S : UFootSyncMarkerSettings α) :
    ∀ (ts ps : List α) (b : α), ts.Chain' (· ≤ ·) → (∀ x ∈ ts, b ≤ x) →
      ∀ r ∈ findCrossings S ts ps, b ≤ r.Time := by
  intro ts
  induction ts with
  | nil => intro ps b _ _ r hr; simp [findCrossings] at hr
  | cons t1 rest ih =>
    intro ps b hch hb r hr
    match rest, ps with
    | [], _ => simp [findCrossings] at hr
    | t2 :: ts', [] => simp [findCrossings] at hr
    | t2 :: ts', [p1] => simp [findCrossings] at hr
    | t2 :: ts', p1 :: p2 :: ps' =>
      rw [findCrossings] at hr
      rcases List.mem_append.mp hr with hr | hr
      · by_cases hc : p1 * p2 < 0
        · rw [if_pos hc] at hr
          rcases List.mem_singleton.mp hr with rfl
          have ht12 : t1 ≤ t2 := (List.chain'_cons.mp hch).1
          exact le_trans (hb t1 (List.mem_cons_self _ _))
            (interpolate_bounds t1 p1 t2 p2 ht12).1
        · rw [if_neg hc] at hr; simp at hr
      · exact ih (p2 :: ps') b (List.chain'_cons.mp hch).2
          (fun x hx => hb x (List.mem_cons_of_mem _ hx)) r hr

/-- The crossing scan emits times in non-decreasing order when the sample
times are non-decreasing. -/
theorem findCrossings_pairwise {α : Type} [LinearOrderedField α]
    (S : UFootSyncMarkerSettings α) :
    ∀ (ts ps : List α), ts.Chain' (· ≤ ·) →
      (findCrossings S ts ps).Pairwise (fun a b => a.Time ≤ b.Time) := by
  intro ts
  induction ts with
  | nil => intro ps _; simp [findCrossings]
  | cons t1 rest ih =>
    intro ps hch
    match rest, ps with
    | [], _ => simp [findCrossings]
    | t2 :: ts', [] => simp [findCrossings]
    | t2 :: ts', [p1] => simp [findCrossings]
    | t2 :: ts', p1 :: p2 :: ps' =>
      rw [findCrossings]
      have hch' : (t2 :: ts').Chain' (· ≤ ·) := (List.chain'_cons.mp hch).2
      have ht12 : t1 ≤ t2 := (List.chain'_cons.mp hch).1
      have hrec := ih (p2 :: ps') hch'
      refine List.pairwise_append.mpr ⟨?_, hrec, ?_⟩
      · by_cases hc : p1 * p2 < 0
        · rw [if_pos hc]; simp
        · rw [if_neg hc]; simp
      · intro a ha b hb
        by_cases hc : p1 * p2 < 0
        · rw [if_pos hc] at ha
          rcases List.mem_singleton.mp ha with rfl
          have hb2 : t2 ≤ b.Time := by
            refine findCrossings_lower S (t2 :: ts') (p2 :: ps') t2 hch' ?_ b hb
            intro x hx
            rcases List.mem_cons.mp hx with rfl | hx
            · exact le_refl _
            · haveI : IsTrans α (· ≤ ·) := ⟨fun a b c => le_trans⟩
              exact List.rel_of_pairwise_cons (List.chain'_iff_pairwise.mp hch') hx
          exact le_trans (interpolate_bounds t1 p1 t2 p2 ht12).2 hb2
        · rw [if_neg hc] at ha; simp at ha

/-- A chain-ascending list is bounded by its `getLastD`. -/
theorem chain_le_getLastD {α : Type} [LinearOrderedField α] :
    ∀ (l : List α) (d : α), l.Chain' (· ≤ ·) → ∀ x ∈ l, x ≤ l.getLastD d := by
  intro l
  induction l with
  | nil => simp
  | cons a rest ih =>
    intro d hch x hx
    match rest with
    | [] =>
      rcases List.mem_singleton.mp hx with rfl
      simp
    | b :: rest' =>
      have hab : a ≤ b := (List.chain'_cons.mp hch).1
      have htail := (List.chain'_cons.mp hch).2
      rcases List.mem_cons.mp hx with rfl | hx
      · calc x ≤ b := hab
          _ ≤ (b :: rest').getLastD x := ih x htail b (List.mem_cons_self _ _)
          _ = (x :: b :: rest').getLastD d := rfl
      · calc x ≤ (b :: rest').getLastD a := ih a htail x hx
          _ = (a :: b :: rest').getLastD d := rfl

/-- Claim C10: for strictly time-ascending input, the PelvisCrossing result
list is already non-decreasing in time — every interpolated crossing time is
clamped into its source interval, so crossings ascend with the scan, and the
loop-boundary result carries the last sample's time, an upper bound of every
crossing time. -/
theorem c10_pelvis_time_ordered {α : Type} [LinearOrderedField α]
    (S : UFootSyncMarkerSettings α) (anim : AnimSamples α)
    (Foot : FSyncFootDefinition) (Preset : FLocomotionPreset α)
    (h : anim.times.Chain' (· < ·)) :
    (pelvisDetectContacts S anim Foot Preset).Pairwise (fun a b => a.Time ≤ b.Time) := by
  have hle : anim.times.Chain' (· ≤ ·) := h.imp (fun a b hab => le_of_lt hab)
  by_cases h1 : (anim.isNull || Foot.BoneName.isNone || Preset.PelvisBoneName.isNone) = true
  · simp [pelvisDetectContacts, h1]
  by_cases h2 : anim.times.length < 2
  · simp [pelvisDetectContacts, h1, h2]
  by_cases h3 : anim.relPositions.length ≠ anim.times.length
  · simp [pelvisDetectContacts, h1, h2, h3]
  simp only [pelvisDetectContacts, h1, h2, h3, if_false, Bool.false_eq_true, if_neg,
    not_false_eq_true]
  refine List.pairwise_append.mpr ⟨findCrossings_pairwise S _ _ hle, ?_, ?_⟩
  · split_ifs <;> simp
  · intro a ha b hb
    split_ifs at hb with hb1 hb2
    case pos =>
      rcases List.mem_singleton.mp hb with rfl
      exact findCrossings_upper S anim.times _ (anim.times.getLastD 0) hle
        (fun x hx => chain_le_getLastD anim.times 0 hle x hx) a ha
    all_goals simp at hb

/-- Witness for `c10_pelvis_time_ordered` at the concrete C2 input. -/
theorem c10_pelvis_time_ordered_witness :
    (pelvisDetectContacts (defaultSettings ℚ) c2Anim okFoot (okPreset ℚ)).Pairwise
      (fun a b => a.Time ≤ b.Time) :=
  c10_pelvis_time_ordered (defaultSettings ℚ) c2Anim okFoot (okPreset ℚ)
    (by norm_num [c2Anim, List.chain'_cons])


/-- Transitivity of the cluster-separation relation. -/
theorem clusterSep_trans {α : Type} [LinearOrderedField α] (th : α) :
    ∀ c d e : List (FFootContactResult α),
      clusterSep th c d → clusterSep th d e → clusterSep th c e := by
  rintro c d e ⟨b1, b2, hc, hd, hbc, hbd, h12⟩ ⟨b2', b3', _, he, hbd', hbe, h23⟩
  obtain ⟨m, hm⟩ := List.exists_mem_of_ne_nil d hd
  refine ⟨b1, b3', hc, he, hbc, hbe, ?_⟩
  have hmb2 : b2 ≤ m.Time := (hbd m hm).1
  have hmb2' : m.Time ≤ b2' + th := (hbd' m hm).2
  linarith

/-- Invariant of the clustering loop over a time-sorted input: every emitted
cluster is non-empty and anchor-bounded, adjacent clusters are separated by
more than the merge threshold, and every member comes from the loop input. -/
theorem clusterLoop_invariant {α : Type} [LinearOrderedField α] (th : α) (hth : 0 ≤ th) :
    ∀ (rest current : List (FFootContactResult α)) (a : α),
      current ≠ [] → clusterBounded th a current →
      rest.Pairwise (fun x y => x.Time ≤ y.Time) →
      (∀ r ∈ rest, a ≤ r.Time) →
      (∀ c ∈ clusterLoop th rest current a, c ≠ [] ∧ ∃ b, clusterBounded th b c) ∧
      (clusterLoop th rest current a).Chain' (clusterSep th) ∧
      (∀ c ∈ clusterLoop th rest current a, ∀ m ∈ c, m ∈ current ∨ m ∈ rest) ∧
      (∃ c0 cs, clusterLoop th rest current a = c0 :: cs ∧
        clusterBounded th a c0 ∧ c0 ≠ []) := by
  intro rest
  induction rest with
  | nil =>
    intro current a hne hbound _ _
    refine ⟨?_, ?_, ?_, current, [], rfl, hbound, hne⟩
    · intro c hc
      rcases List.mem_singleton.mp hc with rfl
      exact ⟨hne, a, hbound⟩
    · exact List.chain'_singleton _
    · intro c hc m hm
      rcases List.mem_singleton.mp hc with rfl
      exact Or.inl hm
  | cons r rest' ih =>
    intro current a hne hbound hrest hsep
    by_cases hj : r.Time - a ≤ th
    · rw [clusterLoop, if_pos hj]
      have hbound' : clusterBounded th a (current ++ [r]) := by
        intro m hm
        rcases List.mem_append.mp hm with hm | hm
        · exact hbound m hm
        · rcases List.mem_singleton.mp hm with rfl
          refine ⟨hsep _ (List.mem_cons_self _ _), ?_⟩
          linarith [sub_le_iff_le_add.mp hj]
      have hrest' := hrest.of_cons
      have hsep' : ∀ x ∈ rest', a ≤ x.Time :=
        fun x hx => hsep x (List.mem_cons_of_mem _ hx)
      obtain ⟨ih1, ih2, ih3, ih4⟩ :=
        ih (current ++ [r]) a (by simp) hbound' hrest' hsep'
      refine ⟨ih1, ih2, ?_, ih4⟩
      · intro c hc m hm
        rcases ih3 c hc m hm with hm' | hm'
        · rcases List.mem_append.mp hm' with hm'' | hm''
          · exact Or.inl hm''
          · rcases List.mem_singleton.mp hm'' with rfl
            exact Or.inr (List.mem_cons_self _ _)
        · exact Or.inr (List.mem_cons_of_mem _ hm')
    · rw [clusterLoop, if_neg hj]
      have hsep'' : ∀ x ∈ rest', r.Time ≤ x.Time :=
        fun x hx => List.rel_of_pairwise_cons hrest hx
      have hbr : clusterBounded th r.Time [r] := by
        intro m hm
        rcases List.mem_singleton.mp hm with rfl
        exact ⟨le_refl _, le_add_of_nonneg_right hth⟩
      obtain ⟨ih1, ih2, ih3, c0, cs, heq, hc0b, hc0ne⟩ :=
        ih [r] r.Time (by simp) hbr hrest.of_cons hsep''
      have hanch : a + th < r.Time := by linarith [not_le.mp hj]
      refine ⟨?_, ?_, ?_, current, clusterLoop th rest' [r] r.Time, rfl, hbound, hne⟩
      · intro c hc
        rcases List.mem_cons.mp hc with rfl | hc
        · exact ⟨hne, a, hbound⟩
        · exact ih1 c hc
      · rw [heq]
        refine List.chain'_cons.mpr ⟨⟨a, r.Time, hne, hc0ne, hbound, hc0b, hanch⟩, ?_⟩
        rw [heq] at ih2
        exact ih2
      · intro c hc m hm
        rcases List.mem_cons.mp hc with rfl | hc
        · exact Or.inl hm
        · rcases ih3 c hc m hm with hm' | hm'
          · rcases List.mem_singleton.mp hm' with rfl
            exact Or.inr (List.mem_cons_self _ _)
          · exact Or.inr (List.mem_cons_of_mem _ hm')


/-- The fused time of a cluster lies within any interval containing all of
its members' times, provided confidences and method weights are
non-negative. -/
theorem calc_time_bounds {α : Type} [LinearOrderedField α]
    (S : UFootSyncMarkerSettings α) (W : FCompositeDetectionWeights α)
    (c : List (FFootContactResult α)) (hne : c ≠ []) (lo hi : α)
    (hmem : ∀ m ∈ c, lo ≤ m.Time ∧ m.Time ≤ hi)
    (hconf : ∀ m ∈ c, 0 ≤ m.Confidence)
    (hw : ∀ meth, 0 ≤ getWeightForMethod W meth) :
    lo ≤ (calculateClusterResult S W c).Time ∧
      (calculateClusterResult S W c).Time ≤ hi := by
  match c with
  | [] => exact absurd rfl hne
  | [r] =>
    simpa [calculateClusterResult] using hmem r (List.mem_singleton_self r)
  | r1 :: r2 :: crest =>
    have hw0 : ∀ m ∈ r1 :: r2 :: crest,
        (0 : α) ≤ getWeightForMethod W m.Source * m.Confidence :=
      fun m hm => mul_nonneg (hw m.Source) (hconf m hm)
    have hTW0 : (0 : α) ≤
        ((r1 :: r2 :: crest).map
          (fun r => getWeightForMethod W r.Source * r.Confidence)).sum := by
      refine List.sum_nonneg ?_
      intro x hx
      obtain ⟨m, hm, rfl⟩ := List.mem_map.mp hx
      exact hw0 m hm
    have hlow : lo * ((r1 :: r2 :: crest).map
          (fun r => getWeightForMethod W r.Source * r.Confidence)).sum ≤
        ((r1 :: r2 :: crest).map
          (fun r => r.Time * (getWeightForMethod W r.Source * r.Confidence))).sum := by
      rw [← List.sum_map_mul_left]
      refine List.sum_le_sum ?_
      intro m hm
      exact mul_le_mul_of_nonneg_right (hmem m hm).1 (hw0 m hm)
    have hhigh : ((r1 :: r2 :: crest).map
          (fun r => r.Time * (getWeightForMethod W r.Source * r.Confidence))).sum ≤
        hi * ((r1 :: r2 :: crest).map
          (fun r => getWeightForMethod W r.Source * r.Confidence)).sum := by
      rw [← List.sum_map_mul_left]
      refine List.sum_le_sum ?_
      intro m hm
      exact mul_le_mul_of_nonneg_right (hmem m hm).2 (hw0 m hm)
    have hn : (0 : α) < ((r1 :: r2 :: crest).length : α) := by
      have : 0 < (r1 :: r2 :: crest).length := by simp
      exact_mod_cast this
    have hsumlo : lo * ((r1 :: r2 :: crest).length : α) ≤
        ((r1 :: r2 :: crest).map (fun r => r.Time)).sum := by
      have h1 : ((r1 :: r2 :: crest).map (fun _ => lo)).sum ≤
          ((r1 :: r2 :: crest).map (fun r => r.Time)).sum :=
        List.sum_le_sum (fun m hm => (hmem m hm).1)
      calc lo * ((r1 :: r2 :: crest).length : α)
          = ((r1 :: r2 :: crest).map (fun _ => lo)).sum := by
            rw [List.map_const', List.sum_replicate, nsmul_eq_mul]; ring
        _ ≤ _ := h1
    have hsumhi : ((r1 :: r2 :: crest).map (fun r => r.Time)).sum ≤
        hi * ((r1 :: r2 :: crest).length : α) := by
      have h1 : ((r1 :: r2 :: crest).map (fun r => r.Time)).sum ≤
          ((r1 :: r2 :: crest).map (fun _ => hi)).sum :=
        List.sum_le_sum (fun m hm => (hmem m hm).2)
      calc ((r1 :: r2 :: crest).map (fun r => r.Time)).sum
          ≤ ((r1 :: r2 :: crest).map (fun _ => hi)).sum := h1
        _ = hi * ((r1 :: r2 :: crest).length : α) := by
            rw [List.map_const', List.sum_replicate, nsmul_eq_mul]; ring
    simp only [calculateClusterResult]
    split_ifs with hTW
    · have hTWpos : (0 : α) < ((r1 :: r2 :: crest).map
          (fun r => getWeightForMethod W r.Source * r.Confidence)).sum := by
        have heps : (0 : α) < kindaSmallNumber α := by norm_num [kindaSmallNumber]
        exact lt_trans heps hTW
      constructor
      · rw [le_div_iff₀ hTWpos]
        exact hlow
      · rw [div_le_iff₀ hTWpos]
        exact hhigh
    · constructor
      · rw [le_div_iff₀ hn]
        exact hsumlo
      · rw [div_le_iff₀ hn]
        exact hsumhi


/-- The final filter-map over non-empty clusters is a plain map. -/
theorem clusters_filterMap {α : Type} [LinearOrderedField α]
    (S : UFootSyncMarkerSettings α) (W : FCompositeDetectionWeights α) :
    ∀ (cs : List (List (FFootContactResult α))), (∀ c ∈ cs, c ≠ []) →
      cs.filterMap (fun c =>
        if c.length > 0 then some (calculateClusterResult S W c) else none) =
      cs.map (calculateClusterResult S W) := by
  intro cs
  induction cs with
  | nil => intro _; rfl
  | cons c cs' ih =>
    intro h
    have hc : c.length > 0 := List.length_pos.mpr (h c (List.mem_cons_self _ _))
    rw [List.filterMap_cons, List.map_cons, if_pos hc,
      ih (fun d hd => h d (List.mem_cons_of_mem _ hd))]

/-- Claim C6: the composite merge pipeline (sort, anchor-based clustering,
per-cluster fusion) emits results in strictly ascending time order, for every
input whose confidences are non-negative, under non-negative method weights
and a non-negative merge threshold (the spec's data-model invariants). -/
theorem c6_composite_time_ordered {α : Type} [LinearOrderedField α]
    (S : UFootSyncMarkerSettings α) (W : FCompositeDetectionWeights α)
    (PelvisResults VelocityResults SaliencyResults : List (FFootContactResult α))
    (hth : 0 ≤ S.ResultMergeThreshold)
    (hw1 : 0 ≤ W.PelvisCrossingWeight) (hw2 : 0 ≤ W.VelocityCurveWeight)
    (hw3 : 0 ≤ W.SaliencyWeight)
    (hconf : ∀ r ∈ PelvisResults ++ VelocityResults ++ SaliencyResults,
      0 ≤ r.Confidence) :
    (mergeResults S W PelvisResults VelocityResults SaliencyResults).Pairwise
      (fun a b => a.Time < b.Time) := by
  have hw : ∀ meth, 0 ≤ getWeightForMethod W meth := by
    intro meth
    cases meth <;> simp [getWeightForMethod, hw1, hw2, hw3]
  by_cases hlen : (PelvisResults ++ VelocityResults ++ SaliencyResults).length = 0
  · simp only [mergeResults]
    rw [if_pos hlen]
    exact List.Pairwise.nil
  rw [mergeResults]
  simp only [hlen, if_false]
  have hsorted : (List.insertionSort resultTimeLE
      (PelvisResults ++ VelocityResults ++ SaliencyResults)).Pairwise
      (fun x y => x.Time ≤ y.Time) := by
    have := List.sorted_insertionSort resultTimeLE
      (PelvisResults ++ VelocityResults ++ SaliencyResults)
    exact this.imp (fun h => h)
  have hconf' : ∀ r ∈ List.insertionSort resultTimeLE
      (PelvisResults ++ VelocityResults ++ SaliencyResults), 0 ≤ r.Confidence := by
    intro r hr
    exact hconf r ((List.perm_insertionSort resultTimeLE _).subset hr)
  cases hS : List.insertionSort resultTimeLE
      (PelvisResults ++ VelocityResults ++ SaliencyResults) with
  | nil => simp [clusterResultsByTime]
  | cons r0 rest =>
    rw [hS] at hsorted hconf'
    rw [clusterResultsByTime]
    have hbr0 : clusterBounded S.ResultMergeThreshold r0.Time [r0] := by
      intro m hm
      rcases List.mem_singleton.mp hm with rfl
      exact ⟨le_refl _, le_add_of_nonneg_right hth⟩
    obtain ⟨inv1, inv2, inv3, _⟩ :=
      clusterLoop_invariant S.ResultMergeThreshold hth rest [r0] r0.Time
        (by simp) hbr0 hsorted.of_cons
        (fun x hx => List.rel_of_pairwise_cons hsorted hx)
    have hclne : ∀ c ∈ clusterLoop S.ResultMergeThreshold rest [r0] r0.Time, c ≠ [] :=
      fun c hc => (inv1 c hc).1
    rw [clusters_filterMap S W _ hclne]
    have hallconf : ∀ c ∈ clusterLoop S.ResultMergeThreshold rest [r0] r0.Time,
        ∀ m ∈ c, 0 ≤ m.Confidence := by
      intro c hc m hm
      rcases inv3 c hc m hm with hm' | hm'
      · rcases List.mem_singleton.mp hm' with rfl
        exact hconf' _ (List.mem_cons_self _ _)
      · exact hconf' m (List.mem_cons_of_mem _ hm')
    haveI : IsTrans (List (FFootContactResult α)) (clusterSep S.ResultMergeThreshold) :=
      ⟨clusterSep_trans S.ResultMergeThreshold⟩
    have hpair : (clusterLoop S.ResultMergeThreshold rest [r0] r0.Time).Pairwise
        (clusterSep S.ResultMergeThreshold) := List.chain'_iff_pairwise.mp inv2
    refine List.pairwise_map.mpr ?_
    refine hpair.imp_of_mem ?_
    intro c d hc hd hsep
    obtain ⟨b1, b2, hcne, hdne, hbc, hbd, hlt⟩ := hsep
    have hcb := calc_time_bounds S W c hcne b1 (b1 + S.ResultMergeThreshold)
      (fun m hm => hbc m hm) (hallconf c hc) hw
    have hdb := calc_time_bounds S W d hdne b2 (b2 + S.ResultMergeThreshold)
      (fun m hm => hbd m hm) (hallconf d hd) hw
    calc (calculateClusterResult S W c).Time
        ≤ b1 + S.ResultMergeThreshold := hcb.2
      _ < b2 := hlt
      _ ≤ (calculateClusterResult S W d).Time := hdb.1


/-- Witness for `c6_composite_time_ordered` at the concrete C3 input. -/
theorem c6_composite_time_ordered_witness :
    (mergeResults (c3Settings (1 / 10)) (defaultWeights ℚ) [c3Pelvis] [c3Velocity]
      []).Pairwise (fun a b => a.Time < b.Time) :=
  c6_composite_time_ordered (c3Settings (1 / 10)) (defaultWeights ℚ) [c3Pelvis]
    [c3Velocity] [] (by norm_num [c3Settings]) (by norm_num [defaultWeights])
    (by norm_num [defaultWeights]) (by norm_num [defaultWeights])
    (by
      intro r hr
      simp only [List.append_nil, List.mem_append, List.mem_singleton] at hr
      rcases hr with rfl | rfl <;> norm_num [c3Pelvis, c3Velocity])



/-- Members of the NMS fold come from the accumulator or the scanned
indices. -/
theorem nms_mem {α : Type} [LinearOrderedField α]
    (C D T : List α) (A W : α) :
    ∀ (l acc : List ℕ) (x : ℕ), x ∈ List.foldl (nmsStep C D T A W) acc l →
      x ∈ acc ∨ x ∈ l := by
  intro l
  induction l with
  | nil => intro acc x hx; exact Or.inl hx
  | cons i l' ih =>
    intro acc x hx
    rcases ih (nmsStep C D T A W acc i) x hx with hx' | hx'
    · unfold nmsStep at hx'
      split_ifs at hx' with h1 h2
      · exact Or.inl hx'
      · rcases List.mem_append.mp hx' with hx'' | hx''
        · exact Or.inl hx''
        · rcases List.mem_singleton.mp hx'' with rfl
          exact Or.inr (List.mem_cons_self _ _)
      · exact Or.inl hx'
    · exact Or.inr (List.mem_cons_of_mem _ hx')

/-- The NMS fold preserves pairwise temporal spacing of at least the window
size. -/
theorem nms_foldl_pairwise {α : Type} [LinearOrderedField α]
    (C D T : List α) (A W : α) :
    ∀ (l acc : List ℕ),
      acc.Pairwise (fun i j => W ≤ |T.getD j 0 - T.getD i 0|) →
      (List.foldl (nmsStep C D T A W) acc l).Pairwise
        (fun i j => W ≤ |T.getD j 0 - T.getD i 0|) := by
  intro l
  induction l with
  | nil => intro acc h; exact h
  | cons i l' ih =>
    intro acc h
    refine ih _ ?_
    unfold nmsStep
    split_ifs with h1 h2
    · exact h
    · refine List.pairwise_append.mpr ⟨h, List.pairwise_singleton _ _, ?_⟩
      intro j hj b hb
      rcases List.mem_singleton.mp hb with rfl
      have hany := h2
      rw [List.any_eq_true] at hany
      push_neg at hany
      have hnot : ¬|T.getD b 0 - T.getD j 0| < W := by simpa using hany j hj
      exact not_lt.mp hnot
    · exact h

/-- Salient indices are pairwise at least `WindowSize` apart in time. -/
theorem findSalientPoints_pairwise {α : Type} [LinearOrderedField α]
    (C T : List α) (W θ : α) :
    (findSalientPoints C T W θ).Pairwise
      (fun i j => W ≤ |T.getD j 0 - T.getD i 0|) := by
  unfold findSalientPoints
  split_ifs with h1
  · exact List.Pairwise.nil
  · exact nms_foldl_pairwise _ _ _ _ _ _ [] List.Pairwise.nil


/-- Claim C8: any two distinct results emitted by one SaliencyDetector
invocation are at least `WindowSize` seconds apart; at index level, two
distinct salient indices are always so spaced, and a candidate closer than
the window to an already-kept (earlier) index is rejected. -/
theorem c8_nms_spacing :
    (∀ (S : UFootSyncMarkerSettings ℝ) (o : Option ℝ) (anim : AnimSamples ℝ)
        (Foot : FSyncFootDefinition) (Preset : FLocomotionPreset ℝ),
      (saliencyDetectContacts S o anim Foot Preset).Pairwise
        (fun a b => S.SaliencyWindowSize ≤ |b.Time - a.Time|)) ∧
    (∀ (α : Type) [LinearOrderedField α] (C T : List α) (W θ : α) (i j : ℕ),
      i ∈ findSalientPoints C T W θ → j ∈ findSalientPoints C T W θ → i ≠ j →
      W ≤ |T.getD j 0 - T.getD i 0|) ∧
    (∀ (α : Type) [LinearOrderedField α] (C T : List α) (W θ : α) (i j : ℕ),
      i ∈ findSalientPoints C T W θ → |T.getD j 0 - T.getD i 0| < W → i ≠ j →
      j ∉ findSalientPoints C T W θ) := by
  have key : ∀ (α : Type) [LinearOrderedField α] (C T : List α) (W θ : α) (i j : ℕ),
      i ∈ findSalientPoints C T W θ → j ∈ findSalientPoints C T W θ → i ≠ j →
      W ≤ |T.getD j 0 - T.getD i 0| := by
    intro α _ C T W θ i j hi hj hne
    have hsym : Symmetric (fun i j : ℕ => W ≤ |T.getD j 0 - T.getD i 0|) := by
      intro a b hab
      rwa [abs_sub_comm]
    exact (findSalientPoints_pairwise C T W θ).forall hsym hi hj hne
  refine ⟨?_, key, ?_⟩
  · intro S o anim Foot Preset
    by_cases h1 : (anim.isNull || Foot.BoneName.isNone) = true
    · simp [saliencyDetectContacts, h1]
    by_cases h2 : anim.times.length < 4
    · simp [saliencyDetectContacts, h1, h2]
    by_cases h3 : anim.worldPositions.length ≠ anim.times.length
    · simp [saliencyDetectContacts, h1, h2, h3]
    by_cases h4 : (calculateCurvature anim.worldPositions).length < 3
    · simp [saliencyDetectContacts, h1, h2, h3, h4]
    simp only [saliencyDetectContacts, h1, h2, h3, h4, Bool.false_eq_true, if_false,
      if_neg, not_false_eq_true]
    refine List.pairwise_filterMap.mpr ?_
    refine (findSalientPoints_pairwise _ _ _ _).imp_of_mem ?_
    intro i j _ _ hsp b hb b' hb'
    split_ifs at hb hb'
    all_goals simp at hb hb'
    all_goals (subst hb; subst hb'; simpa [List.getD_eq_getElem?_getD] using hsp)
  · intro α _ C T W θ i j hi hclose hne hj
    exact absurd (key α C T W θ i j hi hj hne) (not_le.mpr hclose)


/-- Witness for `c8_nms_spacing` at the concrete collinear input. -/
theorem c8_nms_spacing_witness :
    (saliencyDetectContacts (defaultSettings ℝ) none c7Anim okFoot (okPreset ℝ)).Pairwise
      (fun a b => (defaultSettings ℝ).SaliencyWindowSize ≤ |b.Time - a.Time|) :=
  c8_nms_spacing.1 (defaultSettings ℝ) none c7Anim okFoot (okPreset ℝ)


/-- Indexing an all-zero list with default 0 gives 0. -/
theorem allZero_getD {α : Type} [LinearOrderedField α] (l : List α)
    (h : ∀ x ∈ l, x = 0) (n : ℕ) : l.getD n 0 = 0 := by
  by_cases hn : n < l.length
  · rw [List.getD_eq_getElem?_getD, List.getElem?_eq_getElem hn]
    exact h _ (List.getElem_mem hn)
  · rw [List.getD_eq_getElem?_getD, List.getElem?_eq_none (not_lt.mp hn)]
    rfl

/-- Curvature derivatives of an all-zero curvature list are all zero. -/
theorem curvatureDerivatives_allZero {α : Type} [LinearOrderedField α]
    (C T : List α) (hC : ∀ x ∈ C, x = 0) :
    ∀ x ∈ curvatureDerivatives C T, x = 0 := by
  intro x hx
  rcases List.mem_cons.mp hx with rfl | hx
  · rfl
  · obtain ⟨i, _, rfl⟩ := List.mem_map.mp hx
    simp only [allZero_getD C hC]
    split_ifs
    · simp
    · rfl

/-- Folding max over an all-zero list from 0 gives 0. -/
theorem foldl_max_allZero {α : Type} [LinearOrderedField α] :
    ∀ (l : List α), (∀ x ∈ l, x = 0) → l.foldl (fun a b => max a b) 0 = 0 := by
  intro l
  induction l with
  | nil => intro _; rfl
  | cons x l' ih =>
    intro h
    have hx : x = 0 := h x (List.mem_cons_self _ _)
    rw [List.foldl_cons, hx, max_self]
    exact ih (fun y hy => h y (List.mem_cons_of_mem _ hy))

/-- The adaptive threshold of an all-zero derivative list is 0 for every threshold parameter. -/
theorem adaptiveThreshold_allZero {α : Type} [LinearOrderedField α]
    (D : List α) (θ : α) (h : ∀ x ∈ D, x = 0) : adaptiveThreshold D θ = 0 := by
  unfold adaptiveThreshold
  rw [List.sum_eq_zero h, foldl_max_allZero D h]
  simp

/-- No index is a salient candidate when curvatures and derivatives are all zero and the adaptive threshold is 0. -/
theorem isSalientCandidate_allZero {α : Type} [LinearOrderedField α]
    (C D : List α) (hC : ∀ x ∈ C, x = 0) (hD : ∀ x ∈ D, x = 0) (i : ℕ) :
    isSalientCandidate C D 0 i = false := by
  simp only [isSalientCandidate, allZero_getD C hC, allZero_getD D hD]
  simp

/-- The NMS fold leaves the accumulator unchanged when no scanned index is a candidate. -/
theorem nms_foldl_no_candidates {α : Type} [LinearOrderedField α]
    (C D T : List α) (A W : α) :
    ∀ (l acc : List ℕ), (∀ i ∈ l, isSalientCandidate C D A i = false) →
      List.foldl (nmsStep C D T A W) acc l = acc := by
  intro l
  induction l with
  | nil => intro acc _; rfl
  | cons i l' ih =>
    intro acc h
    rw [List.foldl_cons]
    have hstep : nmsStep C D T A W acc i = acc := by
      unfold nmsStep
      rw [h i (List.mem_cons_self _ _)]
      simp
    rw [hstep]
    exact ih acc (fun j hj => h j (List.mem_cons_of_mem _ hj))

/-- An all-zero curvature list yields no salient points, whatever the window and threshold. -/
theorem findSalientPoints_allZero {α : Type} [LinearOrderedField α]
    (C T : List α) (W θ : α) (h : ∀ x ∈ C, x = 0) :
    findSalientPoints C T W θ = [] := by
  have hD := curvatureDerivatives_allZero C T h
  unfold findSalientPoints
  split_ifs with h1
  · rfl
  · show List.foldl
        (nmsStep C (curvatureDerivatives C T) T
          (adaptiveThreshold (curvatureDerivatives C T) θ) W) []
        (List.range' 1 (C.length - 2)) = []
    rw [adaptiveThreshold_allZero _ θ hD]
    exact nms_foldl_no_candidates C _ T 0 W _ []
      (fun i _ => isSalientCandidate_allZero C _ h hD i)

/-- When every interior Menger curvature vanishes, the whole curvature list is zero. -/
theorem calculateCurvature_allZero (P : List (Vec3 ℝ))
    (hcol : ∀ i, 1 ≤ i → i + 1 < P.length →
      calculatePointCurvature (P.getD (i - 1) zeroVec) (P.getD i zeroVec)
        (P.getD (i + 1) zeroVec) = 0) :
    ∀ x ∈ calculateCurvature P, x = 0 := by
  unfold calculateCurvature
  split_ifs with h1
  · simp
  · intro x hx
    rcases List.mem_cons.mp hx with rfl | hx
    · rfl
    · rcases List.mem_append.mp hx with hx | hx
      · obtain ⟨i, hi, rfl⟩ := List.mem_map.mp hx
        rw [List.mem_range'_1] at hi
        refine hcol i hi.1 ?_
        omega
      · rcases List.mem_singleton.mp hx with rfl
        rfl

/-- Claim C7: for every trajectory whose interior samples have zero Menger
curvature (perfect collinearity), SaliencyDetector returns the empty result
list, for every saliency threshold (and threshold override). -/
theorem c7_collinear_empty (S : UFootSyncMarkerSettings ℝ) (o : Option ℝ)
    (anim : AnimSamples ℝ) (Foot : FSyncFootDefinition) (Preset : FLocomotionPreset ℝ)
    (hcol : ∀ i, 1 ≤ i → i + 1 < anim.worldPositions.length →
      calculatePointCurvature (anim.worldPositions.getD (i - 1) zeroVec)
        (anim.worldPositions.getD i zeroVec)
        (anim.worldPositions.getD (i + 1) zeroVec) = 0) :
    saliencyDetectContacts S o anim Foot Preset = [] := by
  have hz := calculateCurvature_allZero anim.worldPositions hcol
  by_cases h1 : (anim.isNull || Foot.BoneName.isNone) = true
  · simp [saliencyDetectContacts, h1]
  by_cases h2 : anim.times.length < 4
  · simp [saliencyDetectContacts, h1, h2]
  by_cases h3 : anim.worldPositions.length ≠ anim.times.length
  · simp [saliencyDetectContacts, h1, h2, h3]
  simp only [saliencyDetectContacts, h1, h2, h3, Bool.false_eq_true, if_false, if_neg,
    not_false_eq_true]
  split_ifs with h4
  case pos => rfl
  all_goals rw [findSalientPoints_allZero _ _ _ _ hz]; rfl


/-- Witness for `c7_collinear_empty`: four collinear samples along X. -/
theorem c7_collinear_empty_witness :
    saliencyDetectContacts (defaultSettings ℝ) none c7Anim okFoot (okPreset ℝ) = [] := by
  refine c7_collinear_empty (defaultSettings ℝ) none c7Anim okFoot (okPreset ℝ) ?_
  intro i h1 h2
  have hlen : c7Anim.worldPositions.length = 4 := rfl
  rw [hlen] at h2
  have hub : i ≤ 2 := by omega
  interval_cases i <;>
    norm_num [c7Anim, calculatePointCurvature, Vec3.sub, Vec3.cross, Vec3.size, zeroVec,
      Real.sqrt_zero, ite_self]



/-- Size of an X-only vector is its non-negative X component. -/
theorem size_xonly (a : ℝ) (h : 0 ≤ a) : Vec3.size ⟨a, 0, 0⟩ = a := by
  simp [Vec3.size]
  exact Real.sqrt_mul_self h

/-- Evaluated velocities of the C4 scenario: forward difference 10, central
difference 5.25, backward difference 0.5. -/
theorem c4_velocities :
    calculateVelocities c4Anim.worldPositions c4Anim.times = [10, 21 / 4, 1 / 2] := by
  simp only [calculateVelocities, c4Anim]
  norm_num [List.range_succ, velocityAt, Vec3.sub, kindaSmallNumber, zeroVec]
  norm_num [size_xonly]

/-- Claim C4, counterexample: with the pelvis bone reference missing,
VelocityCurveDetector still returns a non-empty result list (one contact at
t = 2 with confidence 0.95) rather than the empty list the claim requires of
every detector. -/
theorem c4_counterexample :
    (noPelvisPreset ℝ).PelvisBoneName.isNone = true ∧
    velocityDetectContacts (defaultSettings ℝ) none c4Anim okFoot (noPelvisPreset ℝ) =
      [⟨2, 19 / 20, true, EFootContactDetectionMethod.VelocityCurve⟩] ∧
    velocityDetectContacts (defaultSettings ℝ) none c4Anim okFoot (noPelvisPreset ℝ) ≠ [] := by
  refine ⟨rfl, ?_, ?_⟩ <;>
    simp only [velocityDetectContacts, c4_velocities] <;>
    norm_num [c4Anim, okFoot, defaultSettings, findLocalMinima, List.range',
      kindaSmallNumber, fclamp, max_def, List.filterMap_cons]

end FootSync
